import Mathlib

set_option autoImplicit false

namespace UrlShortener

/-! Shallow embedding of the url-shortener service
(src/app/main.py, src/app/models.py, src/app/utils.py).

Python values that can occur in parsed JSON request bodies are embedded as
`PyVal`; Python exceptions surface as `Except.error`.  The module-level
`url_store` dict is embedded as an insertion-ordered association list that is
threaded explicitly through the handlers; each `with store_lock:` block of the
source is one atomic step of the embedding.  The random draws of
`random.choices` and the `time.strftime` timestamp are explicit arguments. -/

/-- JSON-like Python values, as returned by Flask's `request.get_json`:
strings, integers, booleans, `None`, lists, and dicts listed as string-keyed
entries (a parsed Python dict, so at most one entry per key). -/
inductive PyVal where
  | str (s : String)
  | num (n : Int)
  | boolean (b : Bool)
  | null
  | arr (elems : List PyVal)
  | obj (fields : List (String × PyVal))

/-- Python equality `v == key` between an arbitrary value and a string:
true exactly for an equal string (`==` across types is `False`). -/
def pyEqStr (v : PyVal) (key : String) : Bool :=
  match v with
  | .str s => s == key
  | _ => false

/-- Whether one character list starts with another. -/
def charsPrefixOf : List Char → List Char → Bool
  | [], _ => true
  | _ :: _, [] => false
  | n :: ns, h :: hs => n == h && charsPrefixOf ns hs

/-- Whether one character list occurs contiguously inside another
(Python substring membership `needle in hay`). -/
def charsSubOf : List Char → List Char → Bool
  | needle, [] => needle.isEmpty
  | needle, h :: hs => charsPrefixOf needle (h :: hs) || charsSubOf needle hs

/-- Python falsiness (`not data`): `None`, `False`, `0`, the empty string,
the empty list and the empty dict are falsy; everything else is truthy. -/
def pyFalsy : PyVal → Bool
  | .null => true
  | .boolean b => !b
  | .num n => n == 0
  | .str s => s == ""
  | .arr l => l.isEmpty
  | .obj l => l.isEmpty

/-- Python membership test `key in v` for a string key: key membership for a
dict, element membership for a list, substring test for a string; an int,
bool or `None` raises `TypeError` (modelled as `Except.error`). -/
def pyContains (v : PyVal) (key : String) : Except Unit Bool :=
  match v with
  | .obj fields => .ok (fields.any (fun p => p.1 == key))
  | .arr elems => .ok (elems.any (fun e => pyEqStr e key))
  | .str s => .ok (charsSubOf key.data s.data)
  | _ => .error ()

/-- Python subscription `v[key]` with a string key: dict lookup (`KeyError`
when the key is absent); every non-dict value raises `TypeError`. -/
def pyGetItem (v : PyVal) (key : String) : Except Unit PyVal :=
  match v with
  | .obj fields =>
    match fields.lookup key with
    | some x => .ok x
    | none => .error ()
  | _ => .error ()

/-! Model of the parts of CPython `urllib.parse.urlparse` that
`is_valid_url` inspects (`scheme` and `netloc`).  `urlparse` is standard
library code, not part of this repository; the model follows CPython's
`urlsplit`: tab, CR and LF are removed anywhere, the scheme is split off
before the first colon when well-formed (leading ASCII letter, then scheme
characters) and lowercased, the netloc follows a leading `//` up to the first
`/`, `?` or `#`, and unbalanced square brackets in the netloc raise
`ValueError`. -/

/-- Characters allowed after the first character of a scheme, following
CPython's `scheme_chars`: ASCII letters, digits, and `+`, `-`, `.`. -/
def isSchemeChar (c : Char) : Bool :=
  c.isAlpha || c.isDigit || c == '+' || c == '-' || c == '.'

/-- Split a character list at the first colon; `none` when there is none. -/
def takeUntilColon : List Char → Option (List Char × List Char)
  | [] => none
  | c :: rest =>
    if c = ':' then some ([], rest)
    else
      match takeUntilColon rest with
      | none => none
      | some r => some (c :: r.1, r.2)

/-- Scheme extraction of `urlsplit`: when the text before the first colon is
non-empty, starts with an ASCII letter and continues with scheme characters,
the scheme is that text lowercased and the remainder follows the colon;
otherwise the scheme is empty and the input is left whole. -/
def splitScheme (cs : List Char) : List Char × List Char :=
  match takeUntilColon cs with
  | none => ([], cs)
  | some r =>
    match r.1 with
    | [] => ([], cs)
    | c0 :: rest =>
      if c0.isAlpha && rest.all isSchemeChar then (r.1.map Char.toLower, r.2)
      else ([], cs)

/-- A netloc ends at the first `/`, `?` or `#` (CPython `_splitnetloc`). -/
def netlocDelim (c : Char) : Bool :=
  c == '/' || c == '?' || c == '#'

/-- Scheme and netloc of a URL string, or `Except.error` for the
`ValueError` raised on a netloc with unbalanced square brackets. -/
def urlsplitStr (url : String) : Except Unit (String × String) :=
  let cs := url.data.filter (fun c => !(c == '\t' || c == '\r' || c == '\n'))
  let sr := splitScheme cs
  match sr.2 with
  | '/' :: '/' :: rest2 =>
    let netloc := rest2.takeWhile (fun c => !netlocDelim c)
    if netloc.contains '[' != netloc.contains ']' then .error ()
    else .ok (String.mk sr.1, String.mk netloc)
  | _ => .ok (String.mk sr.1, "")

/-- `urlparse` applied to an arbitrary Python value, as `is_valid_url` may
do: strings are parsed; falsy non-strings are coerced to the empty string by
`_coerce_args`/`_decode_args` and parse to empty scheme and netloc; truthy
non-strings raise (no `.decode` attribute). -/
def pyUrlparse : PyVal → Except Unit (String × String)
  | .str s => urlsplitStr s
  | v => if pyFalsy v then .ok ("", "") else .error ()

/-- Embedding of `is_valid_url` (src/app/utils.py): parse the value and
require a scheme equal to `http` or `https` together with a truthy
(non-empty) netloc; any exception from parsing yields `false`. -/
def is_valid_url (url : PyVal) : Bool :=
  match pyUrlparse url with
  | .ok r => (r.1 == "http" || r.1 == "https") && r.2 != ""
  | .error _ => false

/-- The 62-character alphabet `string.ascii_letters + string.digits` of
src/app/utils.py. -/
def ALPHANUM : List Char :=
  "abcdefghijklmnopqrstuvwxyzABCDEFGHIJKLMNOPQRSTUVWXYZ0123456789".data

/-- The fixed code length of src/app/utils.py. -/
def CODE_LENGTH : Nat := 6

/-- Embedding of `generate_short_code` (src/app/utils.py): the random draws
of `random.choices(ALPHANUM, k=CODE_LENGTH)` are an explicit argument giving,
for each of the `CODE_LENGTH` positions, the chosen index into `ALPHANUM`. -/
def generate_short_code (draws : Fin CODE_LENGTH → Fin ALPHANUM.length) : String :=
  String.mk ((List.finRange CODE_LENGTH).map (fun i => ALPHANUM.get (draws i)))

/-- One `url_store` record `{ 'url': ..., 'clicks': ..., 'created_at': ... }`
(src/app/models.py): the stored Python value for the destination, the click
counter, and the formatted creation timestamp. -/
structure UrlRecord where
  url : PyVal
  clicks : Nat
  created_at : String

/-- The in-memory `url_store` dict, embedded as an insertion-ordered
association list from short code to record; reachable stores hold at most
one entry per key. -/
abbrev Store := List (String × UrlRecord)

/-- Dict lookup `url_store.get(code)`. -/
def storeGet (store : Store) (code : String) : Option UrlRecord :=
  match store with
  | [] => none
  | p :: rest => if p.1 = code then some p.2 else storeGet rest code

/-- Dict membership `code in url_store`. -/
def containsKey (store : Store) (code : String) : Bool :=
  (storeGet store code).isSome

/-- In-place click increment `entry['clicks'] += 1` on the entry at a key. -/
def storeIncr (store : Store) (code : String) : Store :=
  store.map (fun p =>
    if p.1 = code then (p.1, { p.2 with clicks := p.2.clicks + 1 }) else p)

/-- A Flask response as far as the specification observes it: a JSON body
with a status code, or a redirect carrying a Location value. -/
inductive HttpResponse where
  | json (status : Nat) (body : PyVal)
  | redirect (status : Nat) (location : PyVal)

/-- The JSON error body `{"error": msg}` used by every failure response. -/
def errorBody (msg : String) : PyVal := .obj [("error", .str msg)]

/-- The parts of a Flask request that `shorten_url` reads: whether the
content type declares JSON, the body as parsed by `get_json(silent=True)`
(`none` when there is no parseable JSON body), and `request.host_url`. -/
structure ShortenRequest where
  is_json : Bool
  json_body : Option PyVal
  host_url : String

/-- Python `str.rstrip('/')`: drop every trailing slash. -/
def rstripSlash (s : String) : String :=
  String.mk ((s.data.reverse.dropWhile (fun c => c == '/')).reverse)

/-- The generate-and-conditional-insert loop of `shorten_url`: attempt `i`
(with `fuel` attempts remaining) generates a code from the `i`-th draws and,
under the store lock, inserts the record iff the code is absent, stopping
there; otherwise it retries.  Returns `none` when every attempt collides. -/
def genLoop (draws : Nat → Fin CODE_LENGTH → Fin ALPHANUM.length)
    (rec : UrlRecord) (store : Store) : Nat → Nat → Option (String × Store)
  | _, 0 => none
  | i, fuel + 1 =>
    let code := generate_short_code (draws i)
    if containsKey store code then genLoop draws rec store (i + 1) fuel
    else some (code, store ++ [(code, rec)])

/-- Embedding of `shorten_url` (src/app/main.py).  The draws of each attempt
and the `time.strftime` timestamp are explicit arguments; `Except.error`
models an uncaught exception (a `TypeError` escaping from the membership test
`'url' not in data` or the subscription `data['url']`), and `Except.ok` pairs
the response with the resulting store. -/
def shorten_url (req : ShortenRequest)
    (draws : Nat → Fin CODE_LENGTH → Fin ALPHANUM.length)
    (now : String) (store : Store) : Except Unit (HttpResponse × Store) :=
  if !req.is_json then
    .ok (.json 415 (errorBody "Content-Type must be application/json"), store)
  else
    match req.json_body with
    | none =>
      .ok (.json 400 (errorBody "\x27url\x27 parameter is required in request body"), store)
    | some data =>
      if pyFalsy data then
        .ok (.json 400 (errorBody "\x27url\x27 parameter is required in request body"), store)
      else
        match pyContains data "url" with
        | .error e => .error e
        | .ok false =>
          .ok (.json 400 (errorBody "\x27url\x27 parameter is required in request body"), store)
        | .ok true =>
          match pyGetItem data "url" with
          | .error e => .error e
          | .ok long_url =>
            if !is_valid_url long_url then
              .ok (.json 400 (errorBody "Invalid URL"), store)
            else
              match genLoop draws { url := long_url, clicks := 0, created_at := now } store 0 10 with
              | none => .ok (.json 500 (errorBody "Could not generate unique code"), store)
              | some r =>
                .ok (.json 200 (.obj [("short_code", .str r.1),
                      ("short_url", .str (rstripSlash req.host_url ++ "/" ++ r.1))]), r.2)

/-- Embedding of `redirect_short_url` (src/app/main.py): look the code up
under the store lock; 404 when absent, otherwise increment the entry's
clicks in place and redirect (302) to its url. -/
def redirect_short_url (short_code : String) (store : Store) : HttpResponse × Store :=
  match storeGet store short_code with
  | none => (.json 404 (errorBody "Short code not found"), store)
  | some entry => (.redirect 302 entry.url, storeIncr store short_code)

/-- Embedding of `stats` (src/app/main.py): 404 when the code is absent,
otherwise the record's url, clicks and created_at; the handler performs no
write, so the store component is returned unchanged. -/
def stats (short_code : String) (store : Store) : HttpResponse × Store :=
  match storeGet store short_code with
  | none => (.json 404 (errorBody "Short code not found"), store)
  | some entry =>
    (.json 200 (.obj [("url", entry.url), ("clicks", .num (entry.clicks : Int)),
      ("created_at", .str entry.created_at)]), store)

/-- Embedding of `debug_mappings` (src/app/main.py): the full store as JSON,
read under the lock, with no mutation. -/
def debug_mappings (store : Store) : HttpResponse × Store :=
  (.json 200 (.obj (store.map (fun p => (p.1, PyVal.obj [("url", p.2.url),
    ("clicks", .num (p.2.clicks : Int)), ("created_at", .str p.2.created_at)])))), store)

/-- One client request touching (or able to touch) `url_store`, for the
reachable-state invariants: the store-relevant request kinds served by
src/app/main.py. -/
inductive ApiRequest where
  | shortenReq (req : ShortenRequest)
      (draws : Nat → Fin CODE_LENGTH → Fin ALPHANUM.length) (now : String)
  | redirectReq (code : String)
  | statsReq (code : String)
  | debugReq

/-- The store after serving one request; an uncaught exception in
`shorten_url` leaves the store untouched (it is raised before any write). -/
def stepStore (q : ApiRequest) (store : Store) : Store :=
  match q with
  | .shortenReq req draws now =>
    match shorten_url req draws now store with
    | .error _ => store
    | .ok r => r.2
  | .redirectReq code => (redirect_short_url code store).2
  | .statsReq code => (stats code store).2
  | .debugReq => (debug_mappings store).2

/-- The store after serving a sequence of requests in order. -/
def execStore (qs : List ApiRequest) (store : Store) : Store :=
  qs.foldl (fun s q => stepStore q s) store

/-- One atomic `tryInsert`: the `with store_lock:` block of `shorten_url`,
checking absence and inserting in a single critical section.  Returns the
new store and whether insertion happened. -/
def tryInsert (store : Store) (code : String) (rec : UrlRecord) : Store × Bool :=
  if containsKey store code then (store, false)
  else (store ++ [(code, rec)], true)

/-- Run an interleaving of atomic `tryInsert` actions (each the critical
section of some concurrent shorten request) and collect the codes of the
successful insertions, in order. -/
def runInserts (store : Store) : List (String × UrlRecord) → Store × List String
  | [] => (store, [])
  | a :: rest =>
    let r := tryInsert store a.1 a.2
    let r2 := runInserts r.1 rest
    (r2.1, if r.2 then a.1 :: r2.2 else r2.2)

/-- Whether a Python value is a string. -/
def pyIsStr : PyVal → Bool
  | .str _ => true
  | _ => false

/-- A string shaped like a generator output: length 6 and alphanumeric. -/
def codeLikeB (c : String) : Bool :=
  c.length == 6 && c.data.all (fun ch => ch.isAlpha || ch.isDigit)

/-- The store after N redirect requests for one code. -/
def iterRedirect (code : String) : Nat → Store → Store
  | 0, s => s
  | n + 1, s => iterRedirect code n (redirect_short_url code s).2

/-- Draws that always pick index 0 of the alphabet (the letter a). -/
def demoDraws : Nat → Fin CODE_LENGTH → Fin ALPHANUM.length := fun _ _ => ⟨0, by decide⟩

/-- A well-formed shorten request for https://a.com. -/
def demoReq : ShortenRequest :=
  { is_json := true, json_body := some (.obj [("url", PyVal.str "https://a.com")]),
    host_url := "http://localhost:5000/" }

/-- A one-entry demo store with a fresh record. -/
def demoStore : Store :=
  [("abc123", { url := PyVal.str "https://x", clicks := 0, created_at := "t" })]

/-- Two racing insert attempts for the same code. -/
def demoActs : List (String × UrlRecord) :=
  [("abcdef", { url := PyVal.str "https://x", clicks := 0, created_at := "t" }),
   ("abcdef", { url := PyVal.str "https://y", clicks := 0, created_at := "t" })]

/-- A JSON shorten request whose url field is the number 5. -/
def demoBadReq : ShortenRequest :=
  { is_json := true, json_body := some (PyVal.obj [("url", PyVal.num 5)]),
    host_url := "http://localhost:5000/" }

theorem storeGet_append_some (s : Store) (c x : String) (r v : UrlRecord)
    (h : storeGet s x = some v) : storeGet (s ++ [(c, r)]) x = some v := by
  induction s with
  | nil => simp [storeGet] at h
  | cons p rest ih =>
    rw [List.cons_append]
    unfold storeGet at h ⊢
    by_cases hp : p.1 = x
    · rw [if_pos hp] at h ⊢; exact h
    · rw [if_neg hp] at h ⊢; exact ih h

theorem storeGet_append_none (s : Store) (c x : String) (r : UrlRecord)
    (h : storeGet s x = none) :
    storeGet (s ++ [(c, r)]) x = if c = x then some r else none := by
  induction s with
  | nil => simp [storeGet]
  | cons p rest ih =>
    rw [List.cons_append]
    unfold storeGet at h ⊢
    by_cases hp : p.1 = x
    · rw [if_pos hp] at h; exact absurd h (by simp)
    · rw [if_neg hp] at h ⊢; exact ih h

theorem storeGet_incr (s : Store) (c x : String) :
    storeGet (storeIncr s c) x =
      if x = c then (storeGet s c).map (fun r => { r with clicks := r.clicks + 1 })
      else storeGet s x := by
  induction s with
  | nil => simp [storeIncr, storeGet]
  | cons p rest ih =>
    unfold storeIncr at ih ⊢
    rw [List.map_cons]
    by_cases hpc : p.1 = c <;> by_cases hxc : x = c
    · subst hxc
      simp [storeGet, hpc, ih]
    · have hpx : ¬p.1 = x := fun h => hxc ((h ▸ hpc : x = c))
      have hcx : ¬c = x := fun h => hxc h.symm
      simp [storeGet, hpc, hpx, hxc, hcx, ih]
    · subst hxc
      simp [storeGet, hpc, ih]
    · simp [storeGet, hpc, hxc, ih]

/-- C8: a redirect request and a stats request for a code absent from the
store both answer 404 with body `{"error": "Short code not found"}` and leave
the store unchanged. -/
theorem unknown_code_not_found (store : Store) (code : String)
    (h : storeGet store code = none) :
    redirect_short_url code store =
      (.json 404 (errorBody "Short code not found"), store)
  ∧ stats code store = (.json 404 (errorBody "Short code not found"), store) := by
  constructor
  · unfold redirect_short_url; rw [h]
  · unfold stats; rw [h]

theorem unknown_code_not_found_witness :
    redirect_short_url "zzzzzz" demoStore =
      (.json 404 (errorBody "Short code not found"), demoStore)
  ∧ stats "zzzzzz" demoStore =
      (.json 404 (errorBody "Short code not found"), demoStore) :=
  unknown_code_not_found demoStore "zzzzzz" rfl

/-- C5: `is_valid_url` is true exactly when parsing the value yields a
scheme equal to http or https together with a non-empty network location,
and any input whose parsing raises an exception yields false rather than an
error. -/
theorem is_valid_url_iff (v : PyVal) :
    (is_valid_url v = true ↔
      ∃ sch nl, pyUrlparse v = Except.ok (sch, nl)
        ∧ (sch = "http" ∨ sch = "https") ∧ nl ≠ "")
  ∧ (pyUrlparse v = Except.error () → is_valid_url v = false) := by
  constructor
  · unfold is_valid_url
    cases h : pyUrlparse v with
    | ok r =>
      obtain ⟨sch, nl⟩ := r
      simp only [Bool.and_eq_true, Bool.or_eq_true, beq_iff_eq, bne_iff_ne,
        Except.ok.injEq, Prod.mk.injEq]
      constructor
      · rintro ⟨hs, hn⟩; exact ⟨sch, nl, ⟨rfl, rfl⟩, hs, hn⟩
      · rintro ⟨s2, n2, ⟨h1, h2⟩, hs, hn⟩
        subst h1; subst h2; exact ⟨hs, hn⟩
    | error e =>
      simp
  · intro h
    unfold is_valid_url
    rw [h]

theorem is_valid_url_iff_witness :
    is_valid_url (PyVal.str "https://example.com") = true
  ∧ is_valid_url (PyVal.str "http://[abc") = false := by
  constructor
  · exact (is_valid_url_iff (PyVal.str "https://example.com")).1.mpr
      ⟨"https", "example.com", rfl, Or.inr rfl, by decide⟩
  · exact (is_valid_url_iff (PyVal.str "http://[abc")).2 rfl

theorem lookup_any_key (fields : List (String × PyVal)) (k : String) (v : PyVal)
    (h : fields.lookup k = some v) :
    fields.any (fun p => p.1 == k) = true ∧ fields.isEmpty = false := by
  induction fields with
  | nil => simp [List.lookup] at h
  | cons p rest ih =>
    obtain ⟨pk, pv⟩ := p
    refine ⟨?_, rfl⟩
    rw [List.any_cons]
    by_cases hp : (k == pk) = true
    · have hp2 : (pk == k) = true := by
        rw [beq_iff_eq] at hp ⊢; exact hp.symm
      simp only [hp2, Bool.true_or]
    · rw [Bool.not_eq_true] at hp
      simp only [List.lookup, hp] at h
      simp only [(ih h).1, Bool.or_true]

theorem pyUrlparse_nonstring (v : PyVal) (hstr : pyIsStr v = false) :
    pyUrlparse v = if pyFalsy v = true then Except.ok ("", "") else Except.error () := by
  cases v
  case str s => simp [pyIsStr] at hstr
  all_goals rfl

theorem is_valid_url_nonstring (v : PyVal) (hstr : pyIsStr v = false) :
    is_valid_url v = false := by
  unfold is_valid_url
  rw [pyUrlparse_nonstring v hstr]
  by_cases hf : pyFalsy v = true
  · rw [if_pos hf]; rfl
  · rw [if_neg hf]

/-- C10: a shorten request whose JSON object body carries a non-string url
value is rejected: `is_valid_url` swallows the parse failure and returns
false, so the handler answers 400 `{"error": "Invalid URL"}` and the store
is unchanged. -/
theorem nonstring_url_rejected (req : ShortenRequest)
    (draws : Nat → Fin CODE_LENGTH → Fin ALPHANUM.length) (now : String)
    (store : Store) (fields : List (String × PyVal)) (v : PyVal)
    (hjson : req.is_json = true)
    (hbody : req.json_body = some (PyVal.obj fields))
    (hget : pyGetItem (PyVal.obj fields) "url" = Except.ok v)
    (hstr : pyIsStr v = false) :
    is_valid_url v = false
  ∧ shorten_url req draws now store =
      Except.ok (.json 400 (errorBody "Invalid URL"), store) := by
  have hval := is_valid_url_nonstring v hstr
  refine ⟨hval, ?_⟩
  have hlkp : fields.lookup "url" = some v := by
    have hget2 : (match fields.lookup "url" with
        | some x => (Except.ok x : Except Unit PyVal)
        | none => Except.error ()) = Except.ok v := hget
    cases h : fields.lookup "url" with
    | none => rw [h] at hget2; simp at hget2
    | some w =>
      rw [h] at hget2
      simp only [Except.ok.injEq] at hget2
      rw [hget2]
  have hany := lookup_any_key fields "url" v hlkp
  unfold shorten_url
  rw [hjson, hbody]
  simp [pyFalsy, pyContains, hany.1, hany.2, hget, hval]

theorem nonstring_url_rejected_witness :
    is_valid_url (PyVal.num 5) = false
  ∧ shorten_url demoBadReq demoDraws "t" [] =
      Except.ok (.json 400 (errorBody "Invalid URL"), []) :=
  nonstring_url_rejected demoBadReq demoDraws "t" []
    [("url", PyVal.num 5)] (PyVal.num 5) rfl rfl rfl rfl

theorem redirect_store_some (code : String) (store : Store) (r : UrlRecord)
    (h : storeGet store code = some r) :
    redirect_short_url code store = (.redirect 302 r.url, storeIncr store code) := by
  unfold redirect_short_url; rw [h]

theorem stats_some (code : String) (store : Store) (r : UrlRecord)
    (h : storeGet store code = some r) :
    stats code store = (.json 200 (.obj [("url", r.url), ("clicks", PyVal.num (r.clicks : Int)),
      ("created_at", PyVal.str r.created_at)]), store) := by
  unfold stats; rw [h]

theorem iterRedirect_get (code : String) (N : Nat) (store : Store) (r : UrlRecord)
    (h : storeGet store code = some r) :
    storeGet (iterRedirect code N store) code =
      some { r with clicks := r.clicks + N } := by
  induction N generalizing store r with
  | zero => simpa using h
  | succ n ih =>
    have h2 : storeGet (storeIncr store code) code = some { r with clicks := r.clicks + 1 } := by
      rw [storeGet_incr, if_pos rfl, h]; rfl
    have h3 := ih (storeIncr store code) _ h2
    have hs : iterRedirect code (n + 1) store = iterRedirect code n (storeIncr store code) := by
      show iterRedirect code n (redirect_short_url code store).2 = _
      rw [redirect_store_some code store r h]
    rw [hs, h3]
    have h4 : r.clicks + 1 + n = r.clicks + (n + 1) := by omega
    simp [h4]

/-- C1: a redirect request for a stored code answers 302 with Location being
the stored destination value, increments exactly that record's clicks by
one, and leaves every other entry untouched; N redirects of a freshly
created code (clicks = 0) make its stats report clicks = N. -/
theorem redirect_counts_clicks (store : Store) (code : String) (r : UrlRecord)
    (h : storeGet store code = some r) :
    redirect_short_url code store = (.redirect 302 r.url, storeIncr store code)
  ∧ storeGet (redirect_short_url code store).2 code = some { r with clicks := r.clicks + 1 }
  ∧ (∀ x, ¬x = code → storeGet (redirect_short_url code store).2 x = storeGet store x)
  ∧ (r.clicks = 0 → ∀ N, stats code (iterRedirect code N store) =
      (.json 200 (.obj [("url", r.url), ("clicks", PyVal.num (N : Int)),
        ("created_at", PyVal.str r.created_at)]), iterRedirect code N store)) := by
  have c1 := redirect_store_some code store r h
  refine ⟨c1, ?_, ?_, ?_⟩
  · rw [c1, storeGet_incr, if_pos rfl, h]; rfl
  · intro x hx
    rw [c1, storeGet_incr, if_neg hx]
  · intro h0 N
    have hg := iterRedirect_get code N store r h
    rw [stats_some _ _ _ hg]
    simp [h0]

theorem redirect_counts_clicks_witness :
    redirect_short_url "abc123" demoStore =
      (.redirect 302 (PyVal.str "https://x"), storeIncr demoStore "abc123")
  ∧ stats "abc123" (iterRedirect "abc123" 2 demoStore) =
      (.json 200 (.obj [("url", PyVal.str "https://x"), ("clicks", PyVal.num 2),
        ("created_at", PyVal.str "t")]), iterRedirect "abc123" 2 demoStore) := by
  have h := redirect_counts_clicks demoStore "abc123"
    { url := PyVal.str "https://x", clicks := 0, created_at := "t" } rfl
  exact ⟨h.1, h.2.2.2 rfl 2⟩

/-- C4 (code bug): the shorten handler is not exception-safe for every
malformed body: a request declaring JSON whose body is the number 5 passes
the truthiness check and reaches the membership test `'url' not in data`,
which raises an uncaught TypeError (argument of type int is not iterable)
instead of yielding a JSON error response. -/
theorem shorten_crashes_on_number_body :
    shorten_url { is_json := true, json_body := some (PyVal.num 5), host_url := "http://h/" }
      demoDraws "t" [] = Except.error () := rfl

/-- C7 (code bug): a JSON body that is not a non-empty object containing
`url` is supposed to fail with 400, but the body `true` makes the membership
test `'url' not in data` raise an uncaught TypeError instead of returning
BadRequest. -/
theorem shorten_crashes_on_true_body :
    shorten_url { is_json := true, json_body := some (PyVal.boolean true), host_url := "http://h/" }
      demoDraws "t" [] = Except.error () := rfl

theorem genLoop_none_iff (draws : Nat → Fin CODE_LENGTH → Fin ALPHANUM.length)
    (rec : UrlRecord) (store : Store) (i fuel : Nat) :
    genLoop draws rec store i fuel = none ↔
      ∀ j, j < fuel → containsKey store (generate_short_code (draws (i + j))) = true := by
  induction fuel generalizing i with
  | zero => simp [genLoop]
  | succ n ih =>
    simp only [genLoop]
    by_cases h : containsKey store (generate_short_code (draws i)) = true
    · rw [if_pos h, ih]
      constructor
      · intro hall j hj
        cases j with
        | zero => rw [Nat.add_zero]; exact h
        | succ j2 =>
          have hx := hall j2 (by omega)
          have he : i + 1 + j2 = i + (j2 + 1) := by omega
          rwa [he] at hx
      · intro hall j hj
        have hx := hall (j + 1) (by omega)
        have he : i + (j + 1) = i + 1 + j := by omega
        rwa [he] at hx
    · rw [if_neg h]
      apply iff_of_false
      · simp
      · intro hall
        have h0 := hall 0 (by omega)
        rw [Nat.add_zero] at h0
        exact h h0

theorem genLoop_first_fresh (draws : Nat → Fin CODE_LENGTH → Fin ALPHANUM.length)
    (rec : UrlRecord) (store : Store) (fuel i j : Nat)
    (hj : j < fuel)
    (hcoll : ∀ k, k < j → containsKey store (generate_short_code (draws (i + k))) = true)
    (hfree : containsKey store (generate_short_code (draws (i + j))) = false) :
    genLoop draws rec store i fuel =
      some (generate_short_code (draws (i + j)),
        store ++ [(generate_short_code (draws (i + j)), rec)]) := by
  induction fuel generalizing i j with
  | zero => omega
  | succ n ih =>
    simp only [genLoop]
    cases j with
    | zero =>
      have hfree2 : containsKey store (generate_short_code (draws i)) = false := by
        simpa using hfree
      rw [if_neg (by simp [hfree2])]
      simp
    | succ j2 =>
      have h0 := hcoll 0 (by omega)
      rw [Nat.add_zero] at h0
      rw [if_pos h0]
      have he : i + (j2 + 1) = i + 1 + j2 := by omega
      rw [he]
      refine ih (i + 1) j2 (by omega) ?_ ?_
      · intro k hk
        have he2 : i + 1 + k = i + (k + 1) := by omega
        rw [he2]
        exact hcoll (k + 1) (by omega)
      · have he3 : i + 1 + j2 = i + (j2 + 1) := by omega
        rw [he3]
        exact hfree

theorem genLoop_some_shape (draws : Nat → Fin CODE_LENGTH → Fin ALPHANUM.length)
    (rec : UrlRecord) (store : Store) (i fuel : Nat) (code : String) (store2 : Store)
    (h : genLoop draws rec store i fuel = some (code, store2)) :
    ∃ k, code = generate_short_code (draws k)
      ∧ containsKey store code = false
      ∧ store2 = store ++ [(code, rec)] := by
  induction fuel generalizing i with
  | zero => simp [genLoop] at h
  | succ n ih =>
    simp only [genLoop] at h
    by_cases hc : containsKey store (generate_short_code (draws i)) = true
    · rw [if_pos hc] at h
      exact ih (i + 1) h
    · rw [if_neg hc] at h
      rw [Bool.not_eq_true] at hc
      simp only [Option.some.injEq, Prod.mk.injEq] at h
      obtain ⟨h1, h2⟩ := h
      refine ⟨i, h1.symm, ?_, ?_⟩
      · rw [← h1]; exact hc
      · rw [← h2, h1]

theorem shorten_url_valid_eq (req : ShortenRequest)
    (draws : Nat → Fin CODE_LENGTH → Fin ALPHANUM.length) (now : String) (store : Store)
    (data v : PyVal)
    (hjson : req.is_json = true) (hbody : req.json_body = some data)
    (hfalsy : pyFalsy data = false)
    (hmem : pyContains data "url" = Except.ok true)
    (hget : pyGetItem data "url" = Except.ok v)
    (hvalid : is_valid_url v = true) :
    shorten_url req draws now store =
      match genLoop draws { url := v, clicks := 0, created_at := now } store 0 10 with
      | none => Except.ok (.json 500 (errorBody "Could not generate unique code"), store)
      | some r => Except.ok (.json 200 (.obj [("short_code", PyVal.str r.1),
          ("short_url", PyVal.str (rstripSlash req.host_url ++ "/" ++ r.1))]), r.2) := by
  unfold shorten_url
  rw [hjson, hbody]
  simp [hfalsy, hmem, hget, hvalid]

/-- C2: a shorten request that passes validation makes at most 10
generate-and-conditional-insert attempts; it answers 500
`{"error": "Could not generate unique code"}` with the store unchanged
exactly when all 10 generated codes already exist, and otherwise it stops at
the first attempt whose code is absent, inserting exactly one new record
with the submitted url, clicks 0 and the creation timestamp. -/
theorem shorten_retry_bound (req : ShortenRequest)
    (draws : Nat → Fin CODE_LENGTH → Fin ALPHANUM.length) (now : String) (store : Store)
    (data v : PyVal)
    (hjson : req.is_json = true) (hbody : req.json_body = some data)
    (hfalsy : pyFalsy data = false)
    (hmem : pyContains data "url" = Except.ok true)
    (hget : pyGetItem data "url" = Except.ok v)
    (hvalid : is_valid_url v = true) :
    (shorten_url req draws now store =
        Except.ok (.json 500 (errorBody "Could not generate unique code"), store)
      ↔ ∀ i, i < 10 → containsKey store (generate_short_code (draws i)) = true)
  ∧ (∀ i, i < 10 →
      (∀ j, j < i → containsKey store (generate_short_code (draws j)) = true) →
      containsKey store (generate_short_code (draws i)) = false →
      shorten_url req draws now store =
        Except.ok (.json 200 (.obj [("short_code", PyVal.str (generate_short_code (draws i))),
            ("short_url",
              PyVal.str (rstripSlash req.host_url ++ "/" ++ generate_short_code (draws i)))]),
          store ++ [(generate_short_code (draws i),
            { url := v, clicks := 0, created_at := now })])) := by
  have heq := shorten_url_valid_eq req draws now store data v hjson hbody hfalsy hmem hget hvalid
  constructor
  · rw [heq]
    cases hg : genLoop draws { url := v, clicks := 0, created_at := now } store 0 10 with
    | none =>
      apply iff_of_true rfl
      intro i hi
      have hx := (genLoop_none_iff draws _ store 0 10).mp hg i hi
      rwa [Nat.zero_add] at hx
    | some r =>
      apply iff_of_false
      · simp
      · intro hall
        have hn : genLoop draws { url := v, clicks := 0, created_at := now } store 0 10 = none :=
          (genLoop_none_iff draws _ store 0 10).mpr
            (fun j hj => by rw [Nat.zero_add]; exact hall j hj)
        rw [hg] at hn
        exact absurd hn (by simp)
  · intro i hi hcoll hfree
    rw [heq]
    have hg := genLoop_first_fresh draws { url := v, clicks := 0, created_at := now } store 10 0 i hi
      (fun k hk => by rw [Nat.zero_add]; exact hcoll k hk)
      (by rw [Nat.zero_add]; exact hfree)
    rw [hg]
    simp

theorem shorten_retry_bound_witness :
    shorten_url demoReq demoDraws "t" [] =
      Except.ok (.json 200 (.obj [("short_code", PyVal.str (generate_short_code (demoDraws 0))),
          ("short_url",
            PyVal.str (rstripSlash demoReq.host_url ++ "/" ++ generate_short_code (demoDraws 0)))]),
        [] ++ [(generate_short_code (demoDraws 0),
          { url := PyVal.str "https://a.com", clicks := 0, created_at := "t" })]) := by
  have h := shorten_retry_bound demoReq demoDraws "t" []
    (PyVal.obj [("url", PyVal.str "https://a.com")]) (PyVal.str "https://a.com")
    rfl rfl rfl rfl rfl rfl
  exact h.2 0 (by omega) (fun j hj => absurd hj (Nat.not_lt_zero j)) rfl

theorem alphanum_chars : ∀ c ∈ ALPHANUM, (c.isAlpha || c.isDigit) = true := by decide

theorem generate_short_code_shape (d : Fin CODE_LENGTH → Fin ALPHANUM.length) :
    (generate_short_code d).length = 6
  ∧ ∀ ch ∈ (generate_short_code d).data, (ch.isAlpha || ch.isDigit) = true := by
  constructor
  · show ((List.finRange CODE_LENGTH).map (fun i => ALPHANUM.get (d i))).length = 6
    rw [List.length_map, List.length_finRange]
    rfl
  · intro ch hch
    have hch2 : ch ∈ (List.finRange CODE_LENGTH).map (fun i => ALPHANUM.get (d i)) := hch
    rw [List.mem_map] at hch2
    obtain ⟨i, _, hi⟩ := hch2
    rw [← hi]
    exact alphanum_chars _ (List.get_mem ALPHANUM (d i).1 (d i).2)

theorem generate_short_code_codeLike (d : Fin CODE_LENGTH → Fin ALPHANUM.length) :
    codeLikeB (generate_short_code d) = true := by
  have h := generate_short_code_shape d
  unfold codeLikeB
  rw [Bool.and_eq_true, beq_iff_eq, List.all_eq_true]
  exact ⟨h.1, fun ch hch => h.2 ch hch⟩

theorem shorten_url_200 (req : ShortenRequest)
    (draws : Nat → Fin CODE_LENGTH → Fin ALPHANUM.length) (now : String) (store : Store)
    (body : PyVal) (store2 : Store)
    (h : shorten_url req draws now store = Except.ok (.json 200 body, store2)) :
    ∃ v k, body = PyVal.obj [("short_code", PyVal.str (generate_short_code (draws k))),
        ("short_url",
          PyVal.str (rstripSlash req.host_url ++ "/" ++ generate_short_code (draws k)))]
      ∧ containsKey store (generate_short_code (draws k)) = false
      ∧ store2 = store ++ [(generate_short_code (draws k),
          { url := v, clicks := 0, created_at := now })] := by
  unfold shorten_url at h
  split at h
  · exact absurd h (by simp)
  · split at h
    · exact absurd h (by simp)
    · split at h
      · exact absurd h (by simp)
      · split at h
        · exact absurd h (by simp)
        · exact absurd h (by simp)
        · split at h
          · exact absurd h (by simp)
          · rename_i lu hget
            split at h
            · exact absurd h (by simp)
            · split at h
              · exact absurd h (by simp)
              · rename_i r hg
                obtain ⟨k, hk1, hk2, hk3⟩ :=
                  genLoop_some_shape draws _ store 0 10 r.1 r.2 (by rw [hg])
                simp only [Except.ok.injEq, Prod.mk.injEq, HttpResponse.json.injEq,
                  true_and] at h
                refine ⟨lu, k, ?_, ?_, ?_⟩
                · rw [← h.1, hk1]
                · rw [← hk1]; exact hk2
                · rw [← h.2, hk3, hk1]

/-- C6: every generated code draws 6 characters from the 62-character
alphanumeric alphabet, so it has length 6 and only letters and digits; and
every successful (200) shorten response carries such a short_code. -/
theorem generated_codes_alphanumeric :
    ALPHANUM.length = 62
  ∧ (∀ d : Fin CODE_LENGTH → Fin ALPHANUM.length,
        (generate_short_code d).length = 6
      ∧ ∀ ch ∈ (generate_short_code d).data, (ch.isAlpha || ch.isDigit) = true)
  ∧ (∀ req draws now store body store2,
      shorten_url req draws now store = Except.ok (.json 200 body, store2) →
      ∃ code rest, body = PyVal.obj (("short_code", PyVal.str code) :: rest)
        ∧ code.length = 6 ∧ ∀ ch ∈ code.data, (ch.isAlpha || ch.isDigit) = true) := by
  refine ⟨by decide, generate_short_code_shape, ?_⟩
  intro req draws now store body store2 h
  obtain ⟨v, k, hbody, _, _⟩ := shorten_url_200 req draws now store body store2 h
  exact ⟨generate_short_code (draws k), _, hbody,
    (generate_short_code_shape (draws k)).1, (generate_short_code_shape (draws k)).2⟩

theorem generated_codes_alphanumeric_witness :
    (generate_short_code (demoDraws 0)).length = 6
  ∧ ∃ code rest,
      PyVal.obj [("short_code", PyVal.str (generate_short_code (demoDraws 0))),
          ("short_url",
            PyVal.str (rstripSlash demoReq.host_url ++ "/" ++ generate_short_code (demoDraws 0)))]
        = PyVal.obj (("short_code", PyVal.str code) :: rest)
      ∧ code.length = 6 ∧ ∀ ch ∈ code.data, (ch.isAlpha || ch.isDigit) = true := by
  refine ⟨(generated_codes_alphanumeric.2.1 (demoDraws 0)).1, ?_⟩
  exact generated_codes_alphanumeric.2.2 demoReq demoDraws "t" [] _ _ (by rfl)

theorem shorten_url_store (req : ShortenRequest)
    (draws : Nat → Fin CODE_LENGTH → Fin ALPHANUM.length) (now : String) (store : Store)
    (resp : HttpResponse) (store2 : Store)
    (h : shorten_url req draws now store = Except.ok (resp, store2)) :
    store2 = store
  ∨ ∃ d v, containsKey store (generate_short_code d) = false
      ∧ store2 = store ++ [(generate_short_code d,
          { url := v, clicks := 0, created_at := now })] := by
  unfold shorten_url at h
  split at h
  · left; simp only [Except.ok.injEq, Prod.mk.injEq] at h; exact h.2.symm
  · split at h
    · left; simp only [Except.ok.injEq, Prod.mk.injEq] at h; exact h.2.symm
    · split at h
      · left; simp only [Except.ok.injEq, Prod.mk.injEq] at h; exact h.2.symm
      · split at h
        · exact absurd h (by simp)
        · left; simp only [Except.ok.injEq, Prod.mk.injEq] at h; exact h.2.symm
        · split at h
          · exact absurd h (by simp)
          · rename_i lu hget
            split at h
            · left; simp only [Except.ok.injEq, Prod.mk.injEq] at h; exact h.2.symm
            · split at h
              · left; simp only [Except.ok.injEq, Prod.mk.injEq] at h; exact h.2.symm
              · rename_i r hg
                obtain ⟨k, hk1, hk2, hk3⟩ :=
                  genLoop_some_shape draws _ store 0 10 r.1 r.2 (by rw [hg])
                simp only [Except.ok.injEq, Prod.mk.injEq] at h
                right
                refine ⟨draws k, lu, ?_, ?_⟩
                · rw [← hk1]; exact hk2
                · rw [← h.2, hk3, hk1]

theorem stepStore_cases (q : ApiRequest) (s : Store) :
    stepStore q s = s
  ∨ (∃ c, containsKey s c = true ∧ stepStore q s = storeIncr s c)
  ∨ (∃ c rec, containsKey s c = false ∧ codeLikeB c = true ∧ rec.clicks = 0
       ∧ stepStore q s = s ++ [(c, rec)]) := by
  cases q with
  | shortenReq req draws now =>
    have hstep : stepStore (ApiRequest.shortenReq req draws now) s =
        match shorten_url req draws now s with
        | .error _ => s
        | .ok r => r.2 := rfl
    rw [hstep]
    cases h : shorten_url req draws now s with
    | error e => left; rfl
    | ok r =>
      rcases shorten_url_store req draws now s r.1 r.2 (by rw [h]) with h2 | ⟨d, v, hfree, h2⟩
      · left; exact h2
      · right; right
        exact ⟨generate_short_code d, { url := v, clicks := 0, created_at := now },
          hfree, generate_short_code_codeLike d, rfl, h2⟩
  | redirectReq code =>
    have hstep : stepStore (ApiRequest.redirectReq code) s = (redirect_short_url code s).2 := rfl
    rw [hstep]
    unfold redirect_short_url
    cases hg : storeGet s code with
    | none => left; rfl
    | some entry =>
      right; left
      exact ⟨code, by unfold containsKey; rw [hg]; rfl, rfl⟩
  | statsReq code =>
    have hstep : stepStore (ApiRequest.statsReq code) s = (stats code s).2 := rfl
    rw [hstep]
    unfold stats
    cases hg : storeGet s code with
    | none => left; rfl
    | some entry => left; rfl
  | debugReq => left; rfl

theorem stepStore_preserves (q : ApiRequest) (s : Store) (c : String) (r : UrlRecord)
    (h : storeGet s c = some r) :
    ∃ r2, storeGet (stepStore q s) c = some r2
      ∧ r2.url = r.url ∧ r2.created_at = r.created_at ∧ r.clicks ≤ r2.clicks := by
  rcases stepStore_cases q s with h1 | ⟨c2, _, h1⟩ | ⟨c2, rec, hfree, _, _, h1⟩
  · exact ⟨r, by rw [h1, h], rfl, rfl, Nat.le_refl _⟩
  · rw [h1, storeGet_incr]
    by_cases hx : c = c2
    · subst hx
      rw [if_pos rfl, h]
      exact ⟨{ r with clicks := r.clicks + 1 }, rfl, rfl, rfl, Nat.le_succ _⟩
    · rw [if_neg hx]
      exact ⟨r, h, rfl, rfl, Nat.le_refl _⟩
  · rw [h1]
    exact ⟨r, storeGet_append_some s c2 c rec r h, rfl, rfl, Nat.le_refl _⟩

theorem stepStore_new_key (q : ApiRequest) (s : Store) (c : String) (r2 : UrlRecord)
    (h0 : storeGet s c = none) (h2 : storeGet (stepStore q s) c = some r2) :
    codeLikeB c = true ∧ r2.clicks = 0 := by
  rcases stepStore_cases q s with h1 | ⟨c2, _, h1⟩ | ⟨c2, rec, hfree, hcode, hclk, h1⟩
  · rw [h1, h0] at h2; exact absurd h2 (by simp)
  · rw [h1, storeGet_incr] at h2
    by_cases hx : c = c2
    · subst hx; rw [if_pos rfl, h0] at h2; exact absurd h2 (by simp)
    · rw [if_neg hx, h0] at h2; exact absurd h2 (by simp)
  · rw [h1, storeGet_append_none s c2 c rec h0] at h2
    by_cases hx : c2 = c
    · rw [if_pos hx] at h2
      simp only [Option.some.injEq] at h2
      subst hx
      rw [← h2]
      exact ⟨hcode, hclk⟩
    · rw [if_neg hx] at h2; exact absurd h2 (by simp)

theorem execStore_keys_codeLike (qs : List ApiRequest) (s : Store)
    (hs : ∀ c r, storeGet s c = some r → codeLikeB c = true) :
    ∀ c r, storeGet (execStore qs s) c = some r → codeLikeB c = true := by
  induction qs generalizing s with
  | nil => exact hs
  | cons q rest ih =>
    refine ih (stepStore q s) ?_
    intro c r hc
    cases hsc : storeGet s c with
    | some r0 => exact hs c r0 hsc
    | none => exact (stepStore_new_key q s c r hsc hc).1

/-- C3: along any request sequence from the empty store, one further request
never removes a key or changes a record's url or created_at (clicks can only
grow); a key absent before and present after the step was inserted while
absent, is shaped like a generator output, and starts with clicks 0; and
every key of a reachable store is a 6-character alphanumeric generator
output. -/
theorem store_invariants_reachable (qs : List ApiRequest) (q : ApiRequest) :
    (∀ c r, storeGet (execStore qs []) c = some r →
      ∃ r2, storeGet (stepStore q (execStore qs [])) c = some r2
        ∧ r2.url = r.url ∧ r2.created_at = r.created_at ∧ r.clicks ≤ r2.clicks)
  ∧ (∀ c r2, storeGet (execStore qs []) c = none →
      storeGet (stepStore q (execStore qs [])) c = some r2 →
      codeLikeB c = true ∧ r2.clicks = 0)
  ∧ (∀ c r, storeGet (execStore qs []) c = some r → codeLikeB c = true) := by
  refine ⟨?_, ?_, ?_⟩
  · intro c r h; exact stepStore_preserves q _ c r h
  · intro c r2 h0 h2; exact stepStore_new_key q _ c r2 h0 h2
  · exact execStore_keys_codeLike qs [] (fun c r h => by simp [storeGet] at h)

theorem store_invariants_reachable_witness : codeLikeB "aaaaaa" = true :=
  (store_invariants_reachable [ApiRequest.shortenReq demoReq demoDraws "t"]
    (ApiRequest.statsReq "aaaaaa")).2.2 "aaaaaa"
    { url := PyVal.str "https://a.com", clicks := 0, created_at := "t" } rfl

theorem containsKey_append_mono (s : Store) (a : String) (rec : UrlRecord) (c : String)
    (h : containsKey s c = true) : containsKey (s ++ [(a, rec)]) c = true := by
  unfold containsKey at h ⊢
  cases hg : storeGet s c with
  | none => rw [hg] at h; simp at h
  | some r => rw [storeGet_append_some s a c rec r hg]; rfl

theorem tryInsert_mono (s : Store) (a : String × UrlRecord) (c : String)
    (h : containsKey s c = true) : containsKey (tryInsert s a.1 a.2).1 c = true := by
  unfold tryInsert
  by_cases hc : containsKey s a.1 = true
  · rw [if_pos hc]; exact h
  · rw [if_neg hc]; exact containsKey_append_mono s a.1 a.2 c h

theorem runInserts_success_absent (acts : List (String × UrlRecord)) (s : Store) (c : String)
    (h : c ∈ (runInserts s acts).2) : containsKey s c = false := by
  induction acts generalizing s with
  | nil => simp [runInserts] at h
  | cons a rest ih =>
    have h2 : c ∈ (if (tryInsert s a.1 a.2).2 then
        a.1 :: (runInserts (tryInsert s a.1 a.2).1 rest).2
        else (runInserts (tryInsert s a.1 a.2).1 rest).2) := h
    by_cases hs : (tryInsert s a.1 a.2).2 = true
    · rw [if_pos hs] at h2
      rcases List.mem_cons.mp h2 with hx | hx
      · subst hx
        unfold tryInsert at hs
        by_cases hc : containsKey s a.1 = true
        · rw [if_pos hc] at hs; simp at hs
        · rw [Bool.not_eq_true] at hc; exact hc
      · have habs := ih _ hx
        cases hsc : containsKey s c with
        | false => rfl
        | true =>
          have hmono := tryInsert_mono s a c hsc
          rw [habs] at hmono
          simp at hmono
    · rw [if_neg hs] at h2
      have habs := ih _ h2
      cases hsc : containsKey s c with
      | false => rfl
      | true =>
        have hmono := tryInsert_mono s a c hsc
        rw [habs] at hmono
        simp at hmono

theorem runInserts_nodup (acts : List (String × UrlRecord)) (s : Store) :
    (runInserts s acts).2.Nodup := by
  induction acts generalizing s with
  | nil => exact List.nodup_nil
  | cons a rest ih =>
    show (if (tryInsert s a.1 a.2).2 then
        a.1 :: (runInserts (tryInsert s a.1 a.2).1 rest).2
        else (runInserts (tryInsert s a.1 a.2).1 rest).2).Nodup
    by_cases hs : (tryInsert s a.1 a.2).2 = true
    · rw [if_pos hs]
      refine List.Nodup.cons ?_ (ih _)
      intro hmem
      have habs := runInserts_success_absent rest _ a.1 hmem
      unfold tryInsert at hs habs
      by_cases hc : containsKey s a.1 = true
      · rw [if_pos hc] at hs; simp at hs
      · rw [if_neg hc] at habs
        have h0 : storeGet s a.1 = none := by
          rw [Bool.not_eq_true] at hc
          unfold containsKey at hc
          cases hg : storeGet s a.1 with
          | none => rfl
          | some r => rw [hg] at hc; simp at hc
        have hap := storeGet_append_none s a.1 a.1 a.2 h0
        rw [if_pos rfl] at hap
        unfold containsKey at habs
        rw [hap] at habs
        simp at habs
    · rw [if_neg hs]; exact ih _

/-- C9: each `with store_lock:` block is one atomic check-then-insert;
`tryInsert` succeeds exactly when the code is absent, a successful genLoop
insertion is exactly such an atomic tryInsert, and along any interleaving of
atomic tryInsert actions the successfully inserted codes are pairwise
distinct, so two concurrent shorten requests never both succeed with the
same short code. -/
theorem concurrent_insert_exclusion (store : Store) (acts : List (String × UrlRecord)) :
    (∀ code rec, (tryInsert store code rec).2 = true ↔ containsKey store code = false)
  ∧ (∀ draws rec i fuel code store2,
      genLoop draws rec store i fuel = some (code, store2) →
      tryInsert store code rec = (store2, true))
  ∧ (runInserts store acts).2.Nodup := by
  refine ⟨?_, ?_, runInserts_nodup acts store⟩
  · intro code rec
    unfold tryInsert
    by_cases hc : containsKey store code = true
    · rw [if_pos hc]
      constructor
      · intro h; simp at h
      · intro h; rw [h] at hc; simp at hc
    · rw [if_neg hc]
      rw [Bool.not_eq_true] at hc
      exact iff_of_true rfl hc
  · intro draws rec i fuel code store2 hg
    obtain ⟨k, _, hfree, hstore⟩ := genLoop_some_shape draws rec store i fuel code store2 hg
    unfold tryInsert
    rw [if_neg (by simp [hfree]), hstore]

theorem concurrent_insert_exclusion_witness :
    (tryInsert [] "abcdef" { url := PyVal.str "https://x", clicks := 0, created_at := "t" }).2
      = true
  ∧ (runInserts [] demoActs).2.Nodup := by
  have h := concurrent_insert_exclusion [] demoActs
  exact ⟨(h.1 "abcdef" { url := PyVal.str "https://x", clicks := 0, created_at := "t" }).mpr rfl,
    h.2.2⟩

end UrlShortener
